import Mathlib

/-
Verification of the categorical action distribution
(tensorforce/core/distributions/categorical.py) and the unity example
entry point (examples/unity.py).

The tensor operations act independently along the last axis, so a slice
along the last axis is modelled as a `List ℝ`; the multi-dimensional
action shape is modelled as a list of such slices, and the batch
dimension as a list of those.  The numerical constants `util.epsilon`
and `util.tf_dtype('float').min` live outside the translated sources, so
every definition takes them as explicit real parameters `eps` and
`minFloat`.
-/

noncomputable section

namespace Tensorforce

/-- Index of the first maximum of a list of reals (the behaviour of
`tf.argmax` along the last axis); `0` on the empty list. -/
def argmaxIdx : List ℝ → ℕ
  | [] => 0
  | x :: xs => if ∀ y ∈ xs, y ≤ x then 0 else argmaxIdx xs + 1

/-- `tf.nn.softmax` along the last axis. -/
def softmax (xs : List ℝ) : List ℝ :=
  xs.map fun x => Real.exp x / (xs.map Real.exp).sum

/-- `tf.reduce_logsumexp` along the last axis. -/
def logsumexp (xs : List ℝ) : ℝ :=
  Real.log (xs.map Real.exp).sum

/-- `tf.where(condition=mask, x=vals, y=min_float)`: keep masked-in
values, replace masked-out ones by the minimum float value. -/
def maskValues (minFloat : ℝ) (mask : List Bool) (vals : List ℝ) : List ℝ :=
  List.zipWith (fun m v => if m then v else minFloat) mask vals

/-- The "normalized" logits of `tf_parametrize`:
`tf.log(tf.maximum(probabilities, epsilon))`. -/
def normLogits (eps : ℝ) (ps : List ℝ) : List ℝ :=
  ps.map fun p => Real.log (max p eps)

/-- The parameters tuple `(logits, probabilities, states_value,
action_values)` returned by `Categorical.tf_parametrize` for one slice
along the last axis. -/
structure CatParams where
  logits : List ℝ
  probabilities : List ℝ
  statesValue : ℝ
  actionValues : List ℝ

/-- `Categorical.tf_parametrize` on one last-axis slice.  `deviations`
is the slice of the deviations-layer output, `stateValue` is `none` when
`infer_states_value` is true (`self.value is None`) and `some v` when a
separate value head produced `v`. -/
def tf_parametrize (eps minFloat : ℝ) (mask : List Bool) (deviations : List ℝ)
    (stateValue : Option ℝ) : CatParams :=
  match stateValue with
  | none =>
    let actionValues := maskValues minFloat mask deviations
    { logits := normLogits eps (softmax actionValues)
      probabilities := softmax actionValues
      statesValue := logsumexp actionValues
      actionValues := actionValues }
  | some v =>
    let meanDev := deviations.sum / deviations.length
    let actionValues := maskValues minFloat mask (deviations.map fun a => v + a - meanDev)
    { logits := normLogits eps (softmax actionValues)
      probabilities := softmax actionValues
      statesValue := v
      actionValues := actionValues }

/-- The Gumbel noise derived from one uniform draw:
`-tf.log(-tf.log(u))`. -/
def gumbelOf (u : ℝ) : ℝ := -Real.log (-Real.log u)

/-- `Categorical.tf_sample` on one last-axis slice; `uniform` is the
slice of draws from `tf.random.uniform(minval=eps, maxval=1-eps)`. -/
def tf_sample (eps minFloat : ℝ) (p : CatParams) (temperature : ℝ)
    (uniform : List ℝ) : ℕ :=
  let definite := argmaxIdx p.logits
  let scaled := p.logits.map fun l => l / temperature
  let masked := List.zipWith (fun pr l => if pr < eps then minFloat else l)
    p.probabilities scaled
  let sampled := argmaxIdx (List.zipWith (· + ·) masked (uniform.map gumbelOf))
  if temperature < eps then definite else sampled

/-- `Categorical.tf_log_probability` on one last-axis slice:
`batch_gather` of the logits at the action index, then squeeze. -/
def tf_log_probability (p : CatParams) (action : ℕ) : ℝ :=
  p.logits.getD action 0

/-- `Categorical.tf_entropy` on one last-axis slice. -/
def tf_entropy (p : CatParams) : ℝ :=
  -(List.zipWith (· * ·) p.probabilities p.logits).sum

/-- `Categorical.tf_kl_divergence` on one last-axis slice. -/
def tf_kl_divergence (p1 p2 : CatParams) : ℝ :=
  (List.zipWith (· * ·) p1.probabilities
    (List.zipWith (· - ·) p1.logits p2.logits)).sum

/-- `Categorical.tf_states_value`. -/
def tf_states_value (p : CatParams) : ℝ :=
  p.statesValue

/-- Exact log-probability of an action, as the spec words it ("exactly
the logarithm of the probability"). -/
def logProbabilitySpec (p : CatParams) (action : ℕ) : ℝ :=
  Real.log (p.probabilities.getD action 0)

/-- Exact Shannon entropy, as the spec words it ("the negated sum over
the last axis of each probability times its log-probability"). -/
def entropySpec (p : CatParams) : ℝ :=
  -(p.probabilities.map fun a => a * Real.log a).sum

/-- Exact KL divergence, as the spec words it ("the sum over the last
axis of probabilities1 times (log probabilities1 minus log
probabilities2)"). -/
def klDivergenceSpec (p1 p2 : CatParams) : ℝ :=
  (List.zipWith (fun a b => a * (Real.log a - Real.log b))
    p1.probabilities p2.probabilities).sum

/-- The temperature-controlled sampling formula exactly as claim C1
words it: the argmax of the logits divided by the temperature plus the
Gumbel noise, with no masking of low-probability entries. -/
def sampleSpecC1 (p : CatParams) (temperature : ℝ) (uniform : List ℝ) : ℕ :=
  argmaxIdx (List.zipWith (· + ·) (p.logits.map fun l => l / temperature)
    (uniform.map gumbelOf))

/-- Action specification of a `Categorical` distribution: a
multi-dimensional shape and a number of values per component. -/
structure ActionSpec where
  shape : List ℕ
  num_values : ℕ

/-- `util.product(xs=shape)`: the number of action components. -/
def actionSize (spec : ActionSpec) : ℕ :=
  spec.shape.prod

/-- The `size` argument `Categorical.__init__` passes to the
`deviations` linear module. -/
def deviationsSize (spec : ActionSpec) : ℕ :=
  actionSize spec * spec.num_values

/-- `tf.reshape` of one batch element of the flat deviations output to
shape `S x num_values`: `count` last-axis slices of `width` entries. -/
def chunksOf (count width : ℕ) (xs : List ℝ) : List (List ℝ) :=
  match count with
  | 0 => []
  | c + 1 => xs.take width :: chunksOf c width (xs.drop width)

/-- `tf_parametrize` on one batch element of a multi-dimensional action
space: the flat deviations output is reshaped to `S x num_values` and
each component slice is parametrized with its mask slice. -/
def parametrizeComponents (eps minFloat : ℝ) (spec : ActionSpec)
    (mask : List (List Bool)) (flat : List ℝ) : List CatParams :=
  List.zipWith (fun m av => tf_parametrize eps minFloat m av none)
    mask (chunksOf (actionSize spec) spec.num_values flat)

/-- `tf_parametrize` on a whole batch. -/
def parametrizeBatch (eps minFloat : ℝ) (spec : ActionSpec)
    (masks : List (List (List Bool))) (flats : List (List ℝ)) : List (List CatParams) :=
  List.zipWith (parametrizeComponents eps minFloat spec) masks flats

/-- `tf_sample` on a whole batch: each last-axis slice is reduced to one
integer. -/
def sampleBatch (eps minFloat : ℝ) (temperature : ℝ)
    (ps : List (List CatParams)) (uniforms : List (List (List ℝ))) : List (List ℕ) :=
  List.zipWith (fun row us =>
    List.zipWith (fun p u => tf_sample eps minFloat p temperature u) row us) ps uniforms

/-- `tf_log_probability` on a whole batch. -/
def logProbabilityBatch (ps : List (List CatParams)) (actions : List (List ℕ)) :
    List (List ℝ) :=
  List.zipWith (fun row as => List.zipWith tf_log_probability row as) ps actions

/-- `tf_entropy` on a whole batch. -/
def entropyBatch (ps : List (List CatParams)) : List (List ℝ) :=
  ps.map fun row => row.map tf_entropy

/-- `tf_kl_divergence` on a whole batch. -/
def klDivergenceBatch (ps1 ps2 : List (List CatParams)) : List (List ℝ) :=
  List.zipWith (fun r1 r2 => List.zipWith tf_kl_divergence r1 r2) ps1 ps2

/-- `tf_states_value` on a whole batch. -/
def statesValueBatch (ps : List (List CatParams)) : List (List ℝ) :=
  ps.map fun row => row.map tf_states_value

/-- Command-line arguments of `examples/unity.py` after parsing:
`env` is positional, the rest are optional. -/
structure UnityArgs where
  env : String
  agentConfig : Option String
  networkSpec : Option String
  episodes : Option ℕ
  maxEpisodeTimesteps : Option ℕ

/-- The observable steps `main` in `examples/unity.py` performs after
argument parsing, in program order. -/
inductive UnityEvent
  | loadAgentConfig (path : String)
  | loadNetworkSpec (path : String)
  | logNoNetwork
  | buildEnvironment (path : String)
  | buildAgent
  | buildRunner
  | runRunner
deriving DecidableEq

/-- `main` of `examples/unity.py` after argument parsing: the trace of
steps performed, and the `TensorForceError` message raised, if any.
When no agent configuration is supplied the error is raised before
anything else happens, so the trace is empty. -/
def unityMain (args : UnityArgs) : List UnityEvent × Option String :=
  match args.agentConfig with
  | none => ([], some "No agent configuration provided.")
  | some agentPath =>
    let networkEvents : List UnityEvent :=
      match args.networkSpec with
      | none => [UnityEvent.logNoNetwork]
      | some netPath => [UnityEvent.loadNetworkSpec netPath]
    (UnityEvent.loadAgentConfig agentPath :: networkEvents ++
      [UnityEvent.buildEnvironment args.env, UnityEvent.buildAgent,
        UnityEvent.buildRunner, UnityEvent.runRunner], none)

/-- Whether a step constructs the environment, the agent, or the
runner. -/
def UnityEvent.isConstruction : UnityEvent → Bool
  | UnityEvent.buildEnvironment _ => true
  | UnityEvent.buildAgent => true
  | UnityEvent.buildRunner => true
  | _ => false

/-- Concrete instance for the C7 witness: one batch element, action
shape `[1]`, two values per component. -/
def w7spec : ActionSpec := ⟨[1], 2⟩

/-- Concrete masks for the C7 witness. -/
def w7masks : List (List (List Bool)) := [[[true, true]]]

/-- Concrete flat deviations output for the C7 witness. -/
def w7flats : List (List ℝ) := [[0, 0]]

/-- Concrete uniform draws for the C7 witness. -/
def w7unifs : List (List (List ℝ)) := [[[1/2, 1/2]]]

/-- Concrete actions for the C7 witness. -/
def w7acts : List (List ℕ) := [[0]]

/-- The clamping constant used in the concrete evaluations below,
standing in for `util.epsilon`. -/
def exEps : ℝ := 1/1000000

/-- The minimum float value used in the concrete evaluations below,
standing in for `util.tf_dtype('float').min`. -/
def exMin : ℝ := -(2^127)

/-- A concrete parameters tuple produced by `tf_parametrize` with the
second action masked out, so that its probability falls below the
clamping constant. -/
def exParams : CatParams := tf_parametrize exEps exMin [true, false] [0, 0] none

/-- A concrete parameters tuple produced by `tf_parametrize` with no
action masked out: the uniform distribution on two actions. -/
def exParams2 : CatParams := tf_parametrize exEps exMin [true, true] [0, 0] none

/-- Concrete uniform draws for the C1 counterexample, chosen inside the
interval `[epsilon, 1 - epsilon]` the code draws from: the Gumbel noise
they produce is `-log 13` on the first action and `13` on the second. -/
def exUniform : List ℝ := [Real.exp (-13), Real.exp (-Real.exp (-13))]

lemma sum_map_div (xs : List ℝ) (f : ℝ → ℝ) (c : ℝ) :
    (xs.map fun x => f x / c).sum = (xs.map f).sum / c := by
  induction xs with
  | nil => simp
  | cons a tl ih => simp [ih, add_div]

lemma sum_map_exp_pos (xs : List ℝ) (h : xs ≠ []) : 0 < (xs.map Real.exp).sum := by
  cases xs with
  | nil => exact absurd rfl h
  | cons a tl =>
    have h1 : (0:ℝ) < Real.exp a := Real.exp_pos a
    have h2 : (0:ℝ) ≤ (tl.map Real.exp).sum :=
      List.sum_nonneg (by
        intro x hx
        rcases List.mem_map.mp hx with ⟨y, _, rfl⟩
        exact (Real.exp_pos y).le)
    simpa using add_pos_of_pos_of_nonneg h1 h2

lemma softmax_length (xs : List ℝ) : (softmax xs).length = xs.length := by
  simp [softmax]

lemma softmax_nonneg (xs : List ℝ) : ∀ p ∈ softmax xs, 0 ≤ p := by
  intro p hp
  rcases List.mem_map.mp hp with ⟨x, hx, rfl⟩
  have hne : xs ≠ [] := by
    intro h
    subst h
    exact absurd hx (List.not_mem_nil x)
  exact div_nonneg (Real.exp_pos x).le (sum_map_exp_pos xs hne).le

lemma softmax_sum (xs : List ℝ) (h : xs ≠ []) : (softmax xs).sum = 1 := by
  unfold softmax
  rw [sum_map_div]
  exact div_self (sum_map_exp_pos xs h).ne'

lemma maskValues_length (minFloat : ℝ) (mask : List Bool) (vals : List ℝ) :
    (maskValues minFloat mask vals).length = min mask.length vals.length := by
  simp [maskValues]

lemma normLogits_length (eps : ℝ) (ps : List ℝ) :
    (normLogits eps ps).length = ps.length := by
  simp [normLogits]

lemma parametrize_logits_eq (eps minFloat : ℝ) (mask : List Bool)
    (deviations : List ℝ) (sv : Option ℝ) :
    (tf_parametrize eps minFloat mask deviations sv).logits =
      normLogits eps (tf_parametrize eps minFloat mask deviations sv).probabilities := by
  cases sv <;> rfl

lemma parametrize_probabilities_eq (eps minFloat : ℝ) (mask : List Bool)
    (deviations : List ℝ) (sv : Option ℝ) :
    ∃ ys : List ℝ, ys.length = min mask.length deviations.length ∧
      (tf_parametrize eps minFloat mask deviations sv).probabilities = softmax ys := by
  cases sv with
  | none =>
    exact ⟨maskValues minFloat mask deviations, maskValues_length _ _ _, rfl⟩
  | some v =>
    refine ⟨maskValues minFloat mask
      (deviations.map fun a => v + a - deviations.sum / deviations.length), ?_, rfl⟩
    simp [maskValues_length]

lemma zipWith_mul_replicate_zero (ps : List ℝ) (n : ℕ) :
    (List.zipWith (· * ·) ps (List.replicate n (0:ℝ))).sum = 0 := by
  induction ps generalizing n with
  | nil => rfl
  | cons a tl ih =>
    cases n with
    | zero => rfl
    | succ k => simp [ih, List.replicate_succ]

lemma zipWith_mul_sub_self_sum (ps ls : List ℝ) :
    (List.zipWith (· * ·) ps (List.zipWith (· - ·) ls ls)).sum = 0 := by
  have h : List.zipWith (· - ·) ls ls = List.replicate ls.length (0:ℝ) := by
    induction ls with
    | nil => simp
    | cons a tl ih => simp [ih, List.replicate_succ]
  rw [h]
  exact zipWith_mul_replicate_zero ps ls.length

lemma chunksOf_length (count width : ℕ) (xs : List ℝ) :
    (chunksOf count width xs).length = count := by
  induction count generalizing xs with
  | zero => rfl
  | succ c ih => simp [chunksOf, ih]

lemma chunksOf_mem_length (count width : ℕ) (xs : List ℝ)
    (h : xs.length = count * width) :
    ∀ sl ∈ chunksOf count width xs, sl.length = width := by
  induction count generalizing xs with
  | zero => simp [chunksOf]
  | succ c ih =>
    intro sl hsl
    rcases List.mem_cons.mp hsl with rfl | hsl
    · have hge : width ≤ xs.length := by
        rw [h, Nat.succ_mul]
        exact Nat.le_add_left width (c * width)
      simp [List.length_take, Nat.min_eq_left hge]
    · refine ih (xs.drop width) ?_ sl hsl
      rw [List.length_drop, h, Nat.succ_mul]
      exact Nat.add_sub_cancel (c * width) width

lemma mem_zipWith_elem {α β γ : Type} (f : α → β → γ) (l1 : List α) (l2 : List β)
    (c : γ) (hc : c ∈ List.zipWith f l1 l2) :
    ∃ a b, a ∈ l1 ∧ b ∈ l2 ∧ c = f a b := by
  induction l1 generalizing l2 with
  | nil => simp at hc
  | cons x xs ih =>
    cases l2 with
    | nil => simp at hc
    | cons y ys =>
      rcases List.mem_cons.mp hc with rfl | hc
      · exact ⟨x, y, List.mem_cons_self x xs, List.mem_cons_self y ys, rfl⟩
      · rcases ih ys hc with ⟨a, b, ha, hb, rfl⟩
        exact ⟨a, b, List.mem_cons_of_mem x ha, List.mem_cons_of_mem y hb, rfl⟩

lemma argmaxIdx_lt_length (xs : List ℝ) (h : xs ≠ []) : argmaxIdx xs < xs.length := by
  induction xs with
  | nil => exact absurd rfl h
  | cons x tl ih =>
    unfold argmaxIdx
    split
    · simp
    · rename_i hcon
      have htl : tl ≠ [] := by
        intro h0
        subst h0
        exact hcon (by simp)
      simpa using Nat.succ_lt_succ (ih htl)

lemma argmaxIdx_is_max (xs : List ℝ) :
    ∀ i, i < xs.length → xs.getD i 0 ≤ xs.getD (argmaxIdx xs) 0 := by
  induction xs with
  | nil => simp
  | cons x tl ih =>
    intro i hi
    unfold argmaxIdx
    split
    · rename_i hall
      cases i with
      | zero => simp
      | succ j =>
        have hj : j < tl.length := by simpa using hi
        have hmem : tl.getD j 0 ∈ tl :=
          List.getD_eq_getElem tl 0 hj ▸ List.getElem_mem hj
        simpa using hall (tl.getD j 0) hmem
    · rename_i hcon
      have hne : tl ≠ [] := by
        intro h0
        subst h0
        exact hcon (by simp)
      have hstep : (x :: tl).getD (argmaxIdx tl + 1) 0 = tl.getD (argmaxIdx tl) 0 := by
        simp [List.getD]
      rw [hstep]
      cases i with
      | zero =>
        push_neg at hcon
        rcases hcon with ⟨y, hy, hxy⟩
        rcases List.mem_iff_getElem.mp hy with ⟨j, hj, rfl⟩
        have := ih j hj
        rw [List.getD_eq_getElem tl 0 hj] at this
        simpa using le_trans (le_of_lt hxy) this
      | succ j =>
        have hj : j < tl.length := by simpa using hi
        simpa [List.getD] using ih j hj

lemma argmaxIdx_pair (a b : ℝ) : argmaxIdx [a, b] = if b ≤ a then 0 else 1 := by
  simp [argmaxIdx]

lemma entropy_clamped_eq (eps : ℝ) (ps : List ℝ) (h : ∀ p ∈ ps, eps ≤ p) :
    (List.zipWith (· * ·) ps (normLogits eps ps)).sum =
      (ps.map fun a => a * Real.log a).sum := by
  induction ps with
  | nil => rfl
  | cons a tl ih =>
    have ha : max a eps = a := max_eq_left (h a (List.mem_cons_self a tl))
    have htl : ∀ p ∈ tl, eps ≤ p := fun p hp => h p (List.mem_cons_of_mem a hp)
    simp [normLogits, ha]
    simpa [normLogits] using ih htl

lemma kl_clamped_eq (eps : ℝ) (ps1 ps2 : List ℝ)
    (h1 : ∀ p ∈ ps1, eps ≤ p) (h2 : ∀ p ∈ ps2, eps ≤ p) :
    (List.zipWith (· * ·) ps1
        (List.zipWith (· - ·) (normLogits eps ps1) (normLogits eps ps2))).sum =
      (List.zipWith (fun a b => a * (Real.log a - Real.log b)) ps1 ps2).sum := by
  induction ps1 generalizing ps2 with
  | nil => rfl
  | cons a tl ih =>
    cases ps2 with
    | nil => rfl
    | cons b bs =>
      have ha : max a eps = a := max_eq_left (h1 a (List.mem_cons_self a tl))
      have hb : max b eps = b := max_eq_left (h2 b (List.mem_cons_self b bs))
      have htl : ∀ p ∈ tl, eps ≤ p := fun p hp => h1 p (List.mem_cons_of_mem a hp)
      have hbs : ∀ p ∈ bs, eps ≤ p := fun p hp => h2 p (List.mem_cons_of_mem b hp)
      simp [normLogits, ha, hb]
      simpa [normLogits] using ih bs htl hbs

lemma parametrize_probabilities_length (eps minFloat : ℝ) (mask : List Bool)
    (deviations : List ℝ) (sv : Option ℝ) :
    (tf_parametrize eps minFloat mask deviations sv).probabilities.length =
      min mask.length deviations.length := by
  rcases parametrize_probabilities_eq eps minFloat mask deviations sv with ⟨ys, hys, heq⟩
  rw [heq, softmax_length, hys]

lemma parametrize_logits_length (eps minFloat : ℝ) (mask : List Bool)
    (deviations : List ℝ) (sv : Option ℝ) :
    (tf_parametrize eps minFloat mask deviations sv).logits.length =
      min mask.length deviations.length := by
  rw [parametrize_logits_eq, normLogits_length, parametrize_probabilities_length]

lemma getD_map_of_lt {α β : Type} (f : α → β) (l : List α) (n : ℕ)
    (h : n < l.length) (d : β) (d' : α) :
    (l.map f).getD n d = f (l.getD n d') := by
  rw [List.getD_eq_getElem (l.map f) d (by simpa using h), List.getD_eq_getElem l d' h]
  exact List.getElem_map f

lemma exEps_pos : (0:ℝ) < exEps := by norm_num [exEps]

lemma exEps_lt_one : exEps < 1 := by norm_num [exEps]

lemma expExMin_le_inv : Real.exp exMin ≤ 1 / (1 + 2^127) := by
  have h := Real.add_one_le_exp (2^127 : ℝ)
  have h2 : Real.exp exMin = 1 / Real.exp (2^127) := by
    rw [exMin, Real.exp_neg, one_div]
  rw [h2]
  apply one_div_le_one_div_of_le (by positivity)
  linarith

lemma expExMin_lt_eps : Real.exp exMin < exEps :=
  lt_of_le_of_lt expExMin_le_inv (by norm_num [exEps])

lemma expExMin_le_one : Real.exp exMin ≤ 1 :=
  Real.exp_le_one_iff.mpr (by norm_num [exMin])

lemma exParams_probabilities :
    exParams.probabilities =
      [1 / (1 + Real.exp exMin), Real.exp exMin / (1 + Real.exp exMin)] := by
  simp [exParams, tf_parametrize, softmax, maskValues, Real.exp_zero]

lemma exP0_pos : (0:ℝ) < 1 / (1 + Real.exp exMin) := by positivity

lemma exP0_ge_half : (1:ℝ)/2 ≤ 1 / (1 + Real.exp exMin) := by
  apply one_div_le_one_div_of_le (by positivity)
  linarith [expExMin_le_one]

lemma exP0_ge_eps : exEps ≤ 1 / (1 + Real.exp exMin) :=
  le_trans (by norm_num [exEps]) exP0_ge_half

lemma exP0_le_one : 1 / (1 + Real.exp exMin) ≤ 1 := by
  have h : 1 / (1 + Real.exp exMin) ≤ 1 / 1 :=
    one_div_le_one_div_of_le one_pos (by linarith [Real.exp_pos exMin])
  simpa using h

lemma exP1_pos : (0:ℝ) < Real.exp exMin / (1 + Real.exp exMin) := by positivity

lemma exP1_lt_eps : Real.exp exMin / (1 + Real.exp exMin) < exEps := by
  have h : Real.exp exMin / (1 + Real.exp exMin) ≤ Real.exp exMin :=
    div_le_self (Real.exp_pos exMin).le (by linarith [Real.exp_pos exMin])
  exact lt_of_le_of_lt h expExMin_lt_eps

lemma exParams_logits :
    exParams.logits = [Real.log (1 / (1 + Real.exp exMin)), Real.log exEps] := by
  rw [show exParams.logits = normLogits exEps exParams.probabilities from
    parametrize_logits_eq exEps exMin [true, false] [0, 0] none]
  rw [exParams_probabilities]
  rw [show (normLogits exEps
      [1 / (1 + Real.exp exMin), Real.exp exMin / (1 + Real.exp exMin)]) =
    [Real.log (max (1 / (1 + Real.exp exMin)) exEps),
      Real.log (max (Real.exp exMin / (1 + Real.exp exMin)) exEps)] from rfl]
  rw [max_eq_left exP0_ge_eps, max_eq_right exP1_lt_eps.le]

lemma exParams2_probabilities : exParams2.probabilities = [1/2, 1/2] := by
  simp [exParams2, tf_parametrize, softmax, maskValues, Real.exp_zero]
  norm_num

lemma exParams2_logits : exParams2.logits = [Real.log (1/2), Real.log (1/2)] := by
  rw [show exParams2.logits = normLogits exEps exParams2.probabilities from
    parametrize_logits_eq exEps exMin [true, true] [0, 0] none]
  rw [exParams2_probabilities]
  rw [show (normLogits exEps [1/2, 1/2]) =
    [Real.log (max (1/2) exEps), Real.log (max (1/2) exEps)] from rfl]
  rw [max_eq_left (by norm_num [exEps])]

lemma log_exEps_neg : Real.log exEps < 0 :=
  Real.log_neg exEps_pos exEps_lt_one

lemma exp_fourteen_gt : (1000000:ℝ) < Real.exp 14 := by
  have h : Real.exp 14 = Real.exp 1 ^ (14:ℕ) := by
    rw [← Real.exp_nat_mul]
    norm_num
  have h2 : (2.7182818283:ℝ)^(14:ℕ) < Real.exp 1 ^ (14:ℕ) := by
    apply pow_lt_pow_left₀ Real.exp_one_gt_d9 (by norm_num)
    norm_num
  rw [h]
  nlinarith [h2]

lemma log_exEps_gt : -14 < Real.log exEps := by
  rw [Real.lt_log_iff_exp_lt exEps_pos]
  have h3 : Real.exp (-14) = 1 / Real.exp 14 := by rw [Real.exp_neg, one_div]
  rw [h3, exEps, div_lt_div_iff₀ (Real.exp_pos 14) (by norm_num)]
  linarith [exp_fourteen_gt]

lemma log_exP0_nonpos : Real.log (1 / (1 + Real.exp exMin)) ≤ 0 :=
  Real.log_nonpos exP0_pos.le exP0_le_one

lemma log_exP0_ge : -1 ≤ Real.log (1 / (1 + Real.exp exMin)) := by
  have h1 : Real.log (1/2) ≤ Real.log (1 / (1 + Real.exp exMin)) :=
    Real.log_le_log (by norm_num) exP0_ge_half
  have h2 : Real.log (1/2) = -Real.log 2 := by rw [one_div, Real.log_inv]
  linarith [Real.log_two_lt_d9]

lemma log_thirteen_ge_one : (1:ℝ) ≤ Real.log 13 := by
  rw [Real.le_log_iff_exp_le (by norm_num)]
  nlinarith [Real.exp_one_lt_d9]

lemma log_thirteen_le : Real.log 13 ≤ 12 := by
  linarith [Real.log_le_sub_one_of_pos (by norm_num : (0:ℝ) < 13)]

lemma gumbelOf_first : gumbelOf (Real.exp (-13)) = -Real.log 13 := by
  unfold gumbelOf
  rw [Real.log_exp]
  norm_num

lemma gumbelOf_second : gumbelOf (Real.exp (-Real.exp (-13))) = 13 := by
  unfold gumbelOf
  rw [Real.log_exp, neg_neg, Real.log_exp, neg_neg]

lemma exp_thirteen_lt : Real.exp 13 < 450000 := by
  have h : Real.exp 13 = Real.exp 1 ^ (13:ℕ) := by
    rw [← Real.exp_nat_mul]
    norm_num
  have h2 : Real.exp 1 ^ (13:ℕ) < (2.7182818286:ℝ)^(13:ℕ) := by
    apply pow_lt_pow_left₀ Real.exp_one_lt_d9 (Real.exp_pos 1).le
    norm_num
  rw [h]
  nlinarith [h2]

lemma exp_thirteen_ge : (14:ℝ) ≤ Real.exp 13 := by
  linarith [Real.add_one_le_exp (13:ℝ)]

lemma exp_neg_le_one_div (x : ℝ) : Real.exp (-x) ≤ 1 / (1 + x) ∨ 1 + x ≤ 0 := by
  rcases le_or_lt (1 + x) 0 with h | h
  · exact Or.inr h
  · left
    have h1 := Real.add_one_le_exp x
    rw [Real.exp_neg, ← one_div]
    exact one_div_le_one_div_of_le h (by linarith)

lemma exUniform_range : ∀ u ∈ exUniform, exEps ≤ u ∧ u ≤ 1 - exEps := by
  have hlb : (1:ℝ)/450000 ≤ Real.exp (-13) := by
    rw [Real.exp_neg, ← one_div]
    exact one_div_le_one_div_of_le (Real.exp_pos 13) exp_thirteen_lt.le
  have hub : Real.exp (-13) ≤ 1/14 := by
    rw [Real.exp_neg, ← one_div]
    exact one_div_le_one_div_of_le (by norm_num) exp_thirteen_ge
  intro u hu
  rcases List.mem_cons.mp hu with rfl | hu
  · constructor
    · rw [exEps]
      linarith
    · rw [exEps]
      linarith
  rcases List.mem_cons.mp hu with rfl | hu
  · constructor
    · have h1 : Real.exp (-1) ≤ Real.exp (-Real.exp (-13)) := by
        apply Real.exp_le_exp.mpr
        have := Real.exp_le_one_iff.mpr (show (-13:ℝ) ≤ 0 by norm_num)
        linarith
      rw [exEps]
      linarith [Real.exp_neg_one_gt_d9]
    · rcases exp_neg_le_one_div (Real.exp (-13)) with h | h
      · have h2 : 1 / (1 + Real.exp (-13)) ≤ 1 - exEps := by
          rw [exEps, div_le_iff₀ (by positivity)]
          nlinarith [hlb, hub]
        exact le_trans h h2
      · nlinarith [Real.exp_pos (-13:ℝ)]
  · exact absurd hu (List.not_mem_nil u)

/-- Claim C7: for an action specification with shape `S` and `n` values
per component, the deviations module is created with output size
`product(S) * n`, one batch element of its output is reshaped into
`product(S)` last-axis slices of `n` entries each, and sampling,
log-probability, entropy, KL divergence and states value each reduce
over the last axis, producing `batch x product(S)` results. -/
theorem c7_multidim_shapes
    (eps minFloat temperature : ℝ) (spec : ActionSpec)
    (masks : List (List (List Bool))) (flats : List (List ℝ))
    (uniforms : List (List (List ℝ))) (actions : List (List ℕ))
    (hmf : masks.length = flats.length)
    (hflat : ∀ f ∈ flats, f.length = deviationsSize spec)
    (hmaskOuter : ∀ m ∈ masks, m.length = actionSize spec)
    (hmaskInner : ∀ m ∈ masks, ∀ ms ∈ m, ms.length = spec.num_values)
    (hu : uniforms.length = flats.length)
    (huInner : ∀ u ∈ uniforms, u.length = actionSize spec)
    (ha : actions.length = flats.length)
    (haInner : ∀ a ∈ actions, a.length = actionSize spec) :
    deviationsSize spec = spec.shape.prod * spec.num_values ∧
    (∀ f ∈ flats,
      (chunksOf (actionSize spec) spec.num_values f).length = actionSize spec ∧
      ∀ sl ∈ chunksOf (actionSize spec) spec.num_values f,
        sl.length = spec.num_values) ∧
    (parametrizeBatch eps minFloat spec masks flats).length = flats.length ∧
    (∀ row ∈ parametrizeBatch eps minFloat spec masks flats,
      row.length = actionSize spec ∧
      ∀ p ∈ row, p.probabilities.length = spec.num_values ∧
        p.logits.length = spec.num_values) ∧
    (sampleBatch eps minFloat temperature
        (parametrizeBatch eps minFloat spec masks flats) uniforms).length =
      flats.length ∧
    (∀ r ∈ sampleBatch eps minFloat temperature
        (parametrizeBatch eps minFloat spec masks flats) uniforms,
      r.length = actionSize spec) ∧
    (logProbabilityBatch (parametrizeBatch eps minFloat spec masks flats)
        actions).length = flats.length ∧
    (∀ r ∈ logProbabilityBatch (parametrizeBatch eps minFloat spec masks flats)
        actions, r.length = actionSize spec) ∧
    (entropyBatch (parametrizeBatch eps minFloat spec masks flats)).length =
      flats.length ∧
    (∀ r ∈ entropyBatch (parametrizeBatch eps minFloat spec masks flats),
      r.length = actionSize spec) ∧
    (klDivergenceBatch (parametrizeBatch eps minFloat spec masks flats)
        (parametrizeBatch eps minFloat spec masks flats)).length = flats.length ∧
    (∀ r ∈ klDivergenceBatch (parametrizeBatch eps minFloat spec masks flats)
        (parametrizeBatch eps minFloat spec masks flats),
      r.length = actionSize spec) ∧
    (statesValueBatch (parametrizeBatch eps minFloat spec masks flats)).length =
      flats.length ∧
    (∀ r ∈ statesValueBatch (parametrizeBatch eps minFloat spec masks flats),
      r.length = actionSize spec) := by
  have hrowlen : ∀ row ∈ parametrizeBatch eps minFloat spec masks flats,
      row.length = actionSize spec := by
    intro row hrow
    rcases mem_zipWith_elem _ _ _ _ hrow with ⟨m, f, hm, hf, rfl⟩
    unfold parametrizeComponents
    rw [List.length_zipWith, chunksOf_length, hmaskOuter m hm, Nat.min_self]
  have hbatchlen : (parametrizeBatch eps minFloat spec masks flats).length =
      flats.length := by
    unfold parametrizeBatch
    rw [List.length_zipWith, hmf, Nat.min_self]
  have hslice : ∀ row ∈ parametrizeBatch eps minFloat spec masks flats,
      ∀ p ∈ row, p.probabilities.length = spec.num_values ∧
        p.logits.length = spec.num_values := by
    intro row hrow p hp
    rcases mem_zipWith_elem _ _ _ _ hrow with ⟨m, f, hm, hf, rfl⟩
    rcases mem_zipWith_elem _ _ _ _ hp with ⟨ms, av, hms, hav, rfl⟩
    have h1 : ms.length = spec.num_values := hmaskInner m hm ms hms
    have h2 : av.length = spec.num_values := by
      refine chunksOf_mem_length (actionSize spec) spec.num_values f ?_ av hav
      exact hflat f hf
    constructor
    · rw [parametrize_probabilities_length, h1, h2, Nat.min_self]
    · rw [parametrize_logits_length, h1, h2, Nat.min_self]
  refine ⟨rfl, ?_, hbatchlen, fun row hrow => ⟨hrowlen row hrow, hslice row hrow⟩,
    ?_, ?_, ?_, ?_, ?_, ?_, ?_, ?_, ?_, ?_⟩
  · intro f hf
    exact ⟨chunksOf_length _ _ _,
      chunksOf_mem_length (actionSize spec) spec.num_values f (hflat f hf)⟩
  · unfold sampleBatch
    rw [List.length_zipWith, hbatchlen, hu, Nat.min_self]
  · intro r hr
    rcases mem_zipWith_elem _ _ _ _ hr with ⟨row, us, hrow, hus, rfl⟩
    rw [List.length_zipWith, hrowlen row hrow, huInner us hus, Nat.min_self]
  · unfold logProbabilityBatch
    rw [List.length_zipWith, hbatchlen, ha, Nat.min_self]
  · intro r hr
    rcases mem_zipWith_elem _ _ _ _ hr with ⟨row, as, hrow, has, rfl⟩
    rw [List.length_zipWith, hrowlen row hrow, haInner as has, Nat.min_self]
  · unfold entropyBatch
    rw [List.length_map, hbatchlen]
  · intro r hr
    rcases List.mem_map.mp hr with ⟨row, hrow, rfl⟩
    rw [List.length_map]
    exact hrowlen row hrow
  · unfold klDivergenceBatch
    rw [List.length_zipWith, hbatchlen, Nat.min_self]
  · intro r hr
    rcases mem_zipWith_elem _ _ _ _ hr with ⟨r1, r2, hr1, hr2, rfl⟩
    rw [List.length_zipWith, hrowlen r1 hr1, hrowlen r2 hr2, Nat.min_self]
  · unfold statesValueBatch
    rw [List.length_map, hbatchlen]
  · intro r hr
    rcases List.mem_map.mp hr with ⟨row, hrow, rfl⟩
    rw [List.length_map]
    exact hrowlen row hrow

/-- Witness for C7 at the one-element batch instance. -/
theorem c7_multidim_shapes_witness :
    w7masks.length = w7flats.length ∧
    (∀ f ∈ w7flats, f.length = deviationsSize w7spec) ∧
    (∀ m ∈ w7masks, m.length = actionSize w7spec) ∧
    (∀ m ∈ w7masks, ∀ ms ∈ m, ms.length = w7spec.num_values) ∧
    w7unifs.length = w7flats.length ∧
    (∀ u ∈ w7unifs, u.length = actionSize w7spec) ∧
    w7acts.length = w7flats.length ∧
    (∀ a ∈ w7acts, a.length = actionSize w7spec) ∧
    (deviationsSize w7spec = w7spec.shape.prod * w7spec.num_values ∧
     (∀ f ∈ w7flats,
       (chunksOf (actionSize w7spec) w7spec.num_values f).length = actionSize w7spec ∧
       ∀ sl ∈ chunksOf (actionSize w7spec) w7spec.num_values f,
         sl.length = w7spec.num_values) ∧
     (parametrizeBatch 1 0 w7spec w7masks w7flats).length = w7flats.length ∧
     (∀ row ∈ parametrizeBatch 1 0 w7spec w7masks w7flats,
       row.length = actionSize w7spec ∧
       ∀ p ∈ row, p.probabilities.length = w7spec.num_values ∧
         p.logits.length = w7spec.num_values) ∧
     (sampleBatch 1 0 1 (parametrizeBatch 1 0 w7spec w7masks w7flats)
         w7unifs).length = w7flats.length ∧
     (∀ r ∈ sampleBatch 1 0 1 (parametrizeBatch 1 0 w7spec w7masks w7flats)
         w7unifs, r.length = actionSize w7spec) ∧
     (logProbabilityBatch (parametrizeBatch 1 0 w7spec w7masks w7flats)
         w7acts).length = w7flats.length ∧
     (∀ r ∈ logProbabilityBatch (parametrizeBatch 1 0 w7spec w7masks w7flats)
         w7acts, r.length = actionSize w7spec) ∧
     (entropyBatch (parametrizeBatch 1 0 w7spec w7masks w7flats)).length =
       w7flats.length ∧
     (∀ r ∈ entropyBatch (parametrizeBatch 1 0 w7spec w7masks w7flats),
       r.length = actionSize w7spec) ∧
     (klDivergenceBatch (parametrizeBatch 1 0 w7spec w7masks w7flats)
         (parametrizeBatch 1 0 w7spec w7masks w7flats)).length = w7flats.length ∧
     (∀ r ∈ klDivergenceBatch (parametrizeBatch 1 0 w7spec w7masks w7flats)
         (parametrizeBatch 1 0 w7spec w7masks w7flats),
       r.length = actionSize w7spec) ∧
     (statesValueBatch (parametrizeBatch 1 0 w7spec w7masks w7flats)).length =
       w7flats.length ∧
     (∀ r ∈ statesValueBatch (parametrizeBatch 1 0 w7spec w7masks w7flats),
       r.length = actionSize w7spec)) := by
  have h1 : w7masks.length = w7flats.length := rfl
  have h2 : ∀ f ∈ w7flats, f.length = deviationsSize w7spec := by
    simp [w7flats, deviationsSize, actionSize, w7spec]
  have h3 : ∀ m ∈ w7masks, m.length = actionSize w7spec := by
    simp [w7masks, actionSize, w7spec]
  have h4 : ∀ m ∈ w7masks, ∀ ms ∈ m, ms.length = w7spec.num_values := by
    simp [w7masks, w7spec]
  have h5 : w7unifs.length = w7flats.length := rfl
  have h6 : ∀ u ∈ w7unifs, u.length = actionSize w7spec := by
    simp [w7unifs, actionSize, w7spec]
  have h7 : w7acts.length = w7flats.length := rfl
  have h8 : ∀ a ∈ w7acts, a.length = actionSize w7spec := by
    simp [w7acts, actionSize, w7spec]
  exact ⟨h1, h2, h3, h4, h5, h6, h7, h8,
    c7_multidim_shapes 1 0 1 w7spec w7masks w7flats w7unifs w7acts
      h1 h2 h3 h4 h5 h6 h7 h8⟩

/-- Counterexample to claim C1: at temperature `1` (at least epsilon)
and a uniform draw inside the interval the code samples from, the code
returns action `0` while the claimed formula — argmax of logits divided
by temperature plus Gumbel noise, with no masking — returns action `1`:
the code additionally replaces the logits of actions whose probability
is below epsilon by the minimum float value. -/
theorem c1_sample_counterexample :
    exEps ≤ (1:ℝ) ∧
    (∀ u ∈ exUniform, exEps ≤ u ∧ u ≤ 1 - exEps) ∧
    tf_sample exEps exMin exParams 1 exUniform = 0 ∧
    sampleSpecC1 exParams 1 exUniform = 1 := by
  have hgum : exUniform.map gumbelOf = [-Real.log 13, 13] := by
    simp [exUniform, gumbelOf_first, gumbelOf_second]
  have hmexp : exMin ≤ -(100:ℝ) := by norm_num [exMin]
  refine ⟨by norm_num [exEps], exUniform_range, ?_, ?_⟩
  · have h1 : tf_sample exEps exMin exParams 1 exUniform =
        argmaxIdx (List.zipWith (· + ·)
          (List.zipWith (fun pr l => if pr < exEps then exMin else l)
            exParams.probabilities (exParams.logits.map fun l => l / 1))
          (exUniform.map gumbelOf)) := by
      simp only [tf_sample]
      rw [if_neg (by norm_num [exEps])]
    rw [h1, exParams_logits, exParams_probabilities, hgum]
    have h2 : ([Real.log (1 / (1 + Real.exp exMin)), Real.log exEps].map
        fun l => l / 1) = [Real.log (1 / (1 + Real.exp exMin)), Real.log exEps] := by
      simp
    rw [h2]
    have h3 : List.zipWith (fun pr l => if pr < exEps then exMin else l)
        [1 / (1 + Real.exp exMin), Real.exp exMin / (1 + Real.exp exMin)]
        [Real.log (1 / (1 + Real.exp exMin)), Real.log exEps] =
        [Real.log (1 / (1 + Real.exp exMin)), exMin] := by
      simp only [List.zipWith]
      rw [if_neg (not_lt.mpr exP0_ge_eps), if_pos exP1_lt_eps]
    rw [h3]
    have h4 : List.zipWith (· + ·)
        [Real.log (1 / (1 + Real.exp exMin)), exMin] [-Real.log 13, (13:ℝ)] =
        [Real.log (1 / (1 + Real.exp exMin)) + -Real.log 13, exMin + 13] := by
      simp only [List.zipWith]
    rw [h4, argmaxIdx_pair]
    rw [if_pos (by linarith [log_exP0_ge, log_thirteen_le, hmexp])]
  · unfold sampleSpecC1
    rw [exParams_logits, hgum]
    have h2 : ([Real.log (1 / (1 + Real.exp exMin)), Real.log exEps].map
        fun l => l / 1) = [Real.log (1 / (1 + Real.exp exMin)), Real.log exEps] := by
      simp
    rw [h2]
    have h4 : List.zipWith (· + ·)
        [Real.log (1 / (1 + Real.exp exMin)), Real.log exEps] [-Real.log 13, (13:ℝ)] =
        [Real.log (1 / (1 + Real.exp exMin)) + -Real.log 13, Real.log exEps + 13] := by
      simp only [List.zipWith]
    rw [h4, argmaxIdx_pair]
    rw [if_neg (by push_neg; linarith [log_exEps_gt, log_exP0_nonpos, log_thirteen_ge_one])]

/-- Claim C1 as amended: when the temperature is below epsilon,
`tf_sample` returns the argmax of the logits, independently of the
random draw; when the temperature is at least epsilon, it returns the
argmax of (logits divided by temperature, with the entries of actions
whose probability is below epsilon replaced by the minimum float value)
plus independent Gumbel noise. -/
theorem c1_sample_temperature_amended (eps minFloat : ℝ) (mask : List Bool)
    (deviations : List ℝ) (sv : Option ℝ) (temperature : ℝ) (uniform : List ℝ) :
    (temperature < eps →
      tf_sample eps minFloat (tf_parametrize eps minFloat mask deviations sv)
          temperature uniform =
        argmaxIdx (tf_parametrize eps minFloat mask deviations sv).logits) ∧
    (eps ≤ temperature →
      tf_sample eps minFloat (tf_parametrize eps minFloat mask deviations sv)
          temperature uniform =
        argmaxIdx (List.zipWith (· + ·)
          (List.zipWith (fun pr l => if pr < eps then minFloat else l)
            (tf_parametrize eps minFloat mask deviations sv).probabilities
            ((tf_parametrize eps minFloat mask deviations sv).logits.map
              fun l => l / temperature))
          (uniform.map gumbelOf))) := by
  constructor
  · intro h
    simp only [tf_sample]
    rw [if_pos h]
  · intro h
    simp only [tf_sample]
    rw [if_neg (not_lt.mpr h)]

/-- Witness for the amended C1 at both temperature regimes. -/
theorem c1_sample_temperature_amended_witness :
    ((1:ℝ)/4 < 1/2 ∧
      tf_sample (1/2) 0 (tf_parametrize (1/2) 0 [true] [(0:ℝ)] none) (1/4) [1/2] =
        argmaxIdx (tf_parametrize (1/2) 0 [true] [(0:ℝ)] none).logits) ∧
    ((1:ℝ)/2 ≤ 1 ∧
      tf_sample (1/2) 0 (tf_parametrize (1/2) 0 [true] [(0:ℝ)] none) 1 [1/2] =
        argmaxIdx (List.zipWith (· + ·)
          (List.zipWith (fun pr l => if pr < (1:ℝ)/2 then 0 else l)
            (tf_parametrize (1/2) 0 [true] [(0:ℝ)] none).probabilities
            ((tf_parametrize (1/2) 0 [true] [(0:ℝ)] none).logits.map
              fun l => l / 1))
          ([(1:ℝ)/2].map gumbelOf))) :=
  ⟨⟨by norm_num,
    (c1_sample_temperature_amended (1/2) 0 [true] [(0:ℝ)] none (1/4) [1/2]).1
      (by norm_num)⟩,
   ⟨by norm_num,
    (c1_sample_temperature_amended (1/2) 0 [true] [(0:ℝ)] none 1 [1/2]).2
      (by norm_num)⟩⟩

/-- Counterexample to claim C2: in the masked parametrization the
second action's probability is positive but below epsilon, so
`tf_log_probability` returns the clamped value `log epsilon`, which is
strictly greater than the exact log-probability. -/
theorem c2_log_probability_counterexample :
    tf_log_probability exParams 1 ≠ logProbabilitySpec exParams 1 := by
  have h1 : tf_log_probability exParams 1 = Real.log exEps := by
    unfold tf_log_probability
    rw [exParams_logits]
    rfl
  have h2 : logProbabilitySpec exParams 1 =
      Real.log (Real.exp exMin / (1 + Real.exp exMin)) := by
    unfold logProbabilitySpec
    rw [exParams_probabilities]
    rfl
  rw [h1, h2]
  exact (Real.log_lt_log exP1_pos exP1_lt_eps).ne'

/-- Claim C2 as amended: `tf_log_probability` returns the logarithm of
the probability of the action clamped below by epsilon; this equals the
exact log-probability whenever that probability is at least epsilon. -/
theorem c2_log_probability_amended (eps minFloat : ℝ) (mask : List Bool)
    (deviations : List ℝ) (sv : Option ℝ) (a : ℕ)
    (ha : a < (tf_parametrize eps minFloat mask deviations sv).probabilities.length) :
    tf_log_probability (tf_parametrize eps minFloat mask deviations sv) a =
      Real.log
        (max ((tf_parametrize eps minFloat mask deviations sv).probabilities.getD a 0)
          eps) ∧
    (eps ≤ (tf_parametrize eps minFloat mask deviations sv).probabilities.getD a 0 →
      tf_log_probability (tf_parametrize eps minFloat mask deviations sv) a =
        Real.log
          ((tf_parametrize eps minFloat mask deviations sv).probabilities.getD a 0)) := by
  have h1 : tf_log_probability (tf_parametrize eps minFloat mask deviations sv) a =
      Real.log
        (max ((tf_parametrize eps minFloat mask deviations sv).probabilities.getD a 0)
          eps) := by
    unfold tf_log_probability
    rw [parametrize_logits_eq]
    unfold normLogits
    exact getD_map_of_lt _ _ a ha 0 0
  refine ⟨h1, fun h => ?_⟩
  rw [h1, max_eq_left h]

/-- Witness for the amended C2 at an unmasked one-action instance. -/
theorem c2_log_probability_amended_witness :
    0 < (tf_parametrize (1/2) 0 [true] [(0:ℝ)] none).probabilities.length ∧
    (tf_log_probability (tf_parametrize (1/2) 0 [true] [(0:ℝ)] none) 0 =
      Real.log
        (max ((tf_parametrize (1/2) 0 [true] [(0:ℝ)] none).probabilities.getD 0 0)
          (1/2)) ∧
    ((1:ℝ)/2 ≤ (tf_parametrize (1/2) 0 [true] [(0:ℝ)] none).probabilities.getD 0 0 →
      tf_log_probability (tf_parametrize (1/2) 0 [true] [(0:ℝ)] none) 0 =
        Real.log
          ((tf_parametrize (1/2) 0 [true] [(0:ℝ)] none).probabilities.getD 0 0))) :=
  ⟨by simp [tf_parametrize, softmax, maskValues],
    c2_log_probability_amended (1/2) 0 [true] [(0:ℝ)] none 0
      (by simp [tf_parametrize, softmax, maskValues])⟩

/-- Counterexample to claim C3: against the uniform two-action
parametrization, the KL divergence the code computes for the masked
parametrization uses the clamped log-probability `log epsilon` of the
sub-epsilon action, so it differs from the exact KL divergence. -/
theorem c3_kl_divergence_counterexample :
    tf_kl_divergence exParams exParams2 ≠ klDivergenceSpec exParams exParams2 := by
  have hc : tf_kl_divergence exParams exParams2 =
      (1 / (1 + Real.exp exMin)) *
          (Real.log (1 / (1 + Real.exp exMin)) - Real.log (1/2)) +
        ((Real.exp exMin / (1 + Real.exp exMin)) *
          (Real.log exEps - Real.log (1/2)) + 0) := by
    unfold tf_kl_divergence
    rw [exParams_probabilities, exParams_logits, exParams2_logits]
    simp only [List.zipWith, List.sum_cons, List.sum_nil]
  have hs : klDivergenceSpec exParams exParams2 =
      (1 / (1 + Real.exp exMin)) *
          (Real.log (1 / (1 + Real.exp exMin)) - Real.log (1/2)) +
        ((Real.exp exMin / (1 + Real.exp exMin)) *
          (Real.log (Real.exp exMin / (1 + Real.exp exMin)) - Real.log (1/2)) + 0) := by
    unfold klDivergenceSpec
    rw [exParams_probabilities, exParams2_probabilities]
    simp only [List.zipWith, List.sum_cons, List.sum_nil]
  rw [hc, hs]
  intro h
  have hlt : Real.log (Real.exp exMin / (1 + Real.exp exMin)) < Real.log exEps :=
    Real.log_lt_log exP1_pos exP1_lt_eps
  nlinarith [mul_pos exP1_pos (sub_pos.mpr hlt)]

/-- Claim C3 as amended: `tf_kl_divergence` returns the exact KL
divergence between the two parametrizations whenever every probability
of both parametrizations is at least epsilon (otherwise the clamped
logits enter the sum). -/
theorem c3_kl_divergence_amended (eps minFloat : ℝ)
    (mask1 mask2 : List Bool) (dev1 dev2 : List ℝ) (sv1 sv2 : Option ℝ)
    (h1 : ∀ p ∈ (tf_parametrize eps minFloat mask1 dev1 sv1).probabilities, eps ≤ p)
    (h2 : ∀ p ∈ (tf_parametrize eps minFloat mask2 dev2 sv2).probabilities, eps ≤ p) :
    tf_kl_divergence (tf_parametrize eps minFloat mask1 dev1 sv1)
        (tf_parametrize eps minFloat mask2 dev2 sv2) =
      klDivergenceSpec (tf_parametrize eps minFloat mask1 dev1 sv1)
        (tf_parametrize eps minFloat mask2 dev2 sv2) := by
  unfold tf_kl_divergence klDivergenceSpec
  rw [parametrize_logits_eq eps minFloat mask1 dev1 sv1,
    parametrize_logits_eq eps minFloat mask2 dev2 sv2]
  exact kl_clamped_eq eps _ _ h1 h2

/-- Witness for the amended C3 at an unmasked one-action instance. -/
theorem c3_kl_divergence_amended_witness :
    (∀ p ∈ (tf_parametrize (1/2) 0 [true] [(0:ℝ)] none).probabilities, (1:ℝ)/2 ≤ p) ∧
    tf_kl_divergence (tf_parametrize (1/2) 0 [true] [(0:ℝ)] none)
        (tf_parametrize (1/2) 0 [true] [(0:ℝ)] none) =
      klDivergenceSpec (tf_parametrize (1/2) 0 [true] [(0:ℝ)] none)
        (tf_parametrize (1/2) 0 [true] [(0:ℝ)] none) := by
  have hp : ∀ p ∈ (tf_parametrize (1/2) 0 [true] [(0:ℝ)] none).probabilities,
      (1:ℝ)/2 ≤ p := by
    intro p hp
    simp [tf_parametrize, softmax, maskValues] at hp
    rw [hp]
    norm_num
  exact ⟨hp, c3_kl_divergence_amended (1/2) 0 [true] [true] [(0:ℝ)] [(0:ℝ)]
    none none hp hp⟩

/-- Counterexample to claim C4: in the masked parametrization the
entropy the code computes uses the clamped log-probability
`log epsilon` of the sub-epsilon action, so it differs from the exact
Shannon entropy. -/
theorem c4_entropy_counterexample :
    tf_entropy exParams ≠ entropySpec exParams := by
  have hc : tf_entropy exParams =
      -((1 / (1 + Real.exp exMin)) * Real.log (1 / (1 + Real.exp exMin)) +
        ((Real.exp exMin / (1 + Real.exp exMin)) * Real.log exEps + 0)) := by
    unfold tf_entropy
    rw [exParams_probabilities, exParams_logits]
    simp only [List.zipWith, List.sum_cons, List.sum_nil]
  have hs : entropySpec exParams =
      -((1 / (1 + Real.exp exMin)) * Real.log (1 / (1 + Real.exp exMin)) +
        ((Real.exp exMin / (1 + Real.exp exMin)) *
          Real.log (Real.exp exMin / (1 + Real.exp exMin)) + 0)) := by
    unfold entropySpec
    rw [exParams_probabilities]
    simp only [List.map_cons, List.map_nil, List.sum_cons, List.sum_nil]
  rw [hc, hs]
  intro h
  have hlt : Real.log (Real.exp exMin / (1 + Real.exp exMin)) < Real.log exEps :=
    Real.log_lt_log exP1_pos exP1_lt_eps
  nlinarith [mul_pos exP1_pos (sub_pos.mpr hlt)]

/-- Claim C4 as amended: `tf_entropy` returns the exact Shannon entropy
whenever every probability of the parametrization is at least epsilon
(otherwise the clamped logits enter the sum). -/
theorem c4_entropy_amended (eps minFloat : ℝ) (mask : List Bool)
    (deviations : List ℝ) (sv : Option ℝ)
    (h : ∀ p ∈ (tf_parametrize eps minFloat mask deviations sv).probabilities,
      eps ≤ p) :
    tf_entropy (tf_parametrize eps minFloat mask deviations sv) =
      entropySpec (tf_parametrize eps minFloat mask deviations sv) := by
  unfold tf_entropy entropySpec
  rw [parametrize_logits_eq eps minFloat mask deviations sv]
  exact congrArg Neg.neg (entropy_clamped_eq eps _ h)

/-- Witness for the amended C4 at an unmasked one-action instance. -/
theorem c4_entropy_amended_witness :
    (∀ p ∈ (tf_parametrize (1/2) 0 [true] [(0:ℝ)] none).probabilities, (1:ℝ)/2 ≤ p) ∧
    tf_entropy (tf_parametrize (1/2) 0 [true] [(0:ℝ)] none) =
      entropySpec (tf_parametrize (1/2) 0 [true] [(0:ℝ)] none) := by
  have hp : ∀ p ∈ (tf_parametrize (1/2) 0 [true] [(0:ℝ)] none).probabilities,
      (1:ℝ)/2 ≤ p := by
    intro p hp
    simp [tf_parametrize, softmax, maskValues] at hp
    rw [hp]
    norm_num
  exact ⟨hp, c4_entropy_amended (1/2) 0 [true] [(0:ℝ)] none hp⟩

/-- Claim C5: for every embedding input and every mask with at least one
true entry per action component, the probabilities returned by
`tf_parametrize` form a probability distribution over the action values:
every entry is nonnegative and each slice along the last axis sums
to 1. -/
theorem c5_parametrize_probabilities_are_distribution
    (eps minFloat : ℝ) (mask : List Bool) (deviations : List ℝ) (sv : Option ℝ)
    (hlen : mask.length = deviations.length) (hne : deviations ≠ [])
    (_hmask : true ∈ mask) :
    (∀ p ∈ (tf_parametrize eps minFloat mask deviations sv).probabilities, 0 ≤ p) ∧
    (tf_parametrize eps minFloat mask deviations sv).probabilities.sum = 1 := by
  rcases parametrize_probabilities_eq eps minFloat mask deviations sv with ⟨ys, hys,heq⟩
  have hysne : ys ≠ [] := by
    intro h
    rw [h] at hys
    have hd : deviations.length ≠ 0 := fun h0 => hne (List.length_eq_zero.mp h0)
    rw [hlen, Nat.min_self] at hys
    exact hd hys.symm
  rw [heq]
  exact ⟨softmax_nonneg ys, softmax_sum ys hysne⟩

/-- Witness for C5 at mask `[true]`, deviations `[0]`, inferred states
value. -/
theorem c5_parametrize_probabilities_are_distribution_witness :
    ([true] : List Bool).length = ([(0:ℝ)]).length ∧ ([(0:ℝ)]) ≠ [] ∧
      true ∈ ([true] : List Bool) ∧
      ((∀ p ∈ (tf_parametrize 1 0 [true] [(0:ℝ)] none).probabilities, 0 ≤ p) ∧
        (tf_parametrize 1 0 [true] [(0:ℝ)] none).probabilities.sum = 1) :=
  ⟨rfl, by simp, by simp,
    c5_parametrize_probabilities_are_distribution 1 0 [true] [(0:ℝ)] none rfl
      (by simp) (by simp)⟩

/-- Claim C6: the logits returned by `tf_parametrize` equal the
logarithm of the probabilities clamped below by epsilon; every logit is
at least `log epsilon`, and the logarithm is only ever applied to values
at least epsilon, hence never to zero. -/
theorem c6_parametrize_logits_clamped
    (eps minFloat : ℝ) (mask : List Bool) (deviations : List ℝ) (sv : Option ℝ)
    (heps : 0 < eps) :
    (tf_parametrize eps minFloat mask deviations sv).logits =
      (tf_parametrize eps minFloat mask deviations sv).probabilities.map
        (fun p => Real.log (max p eps)) ∧
    (∀ p ∈ (tf_parametrize eps minFloat mask deviations sv).probabilities,
      eps ≤ max p eps ∧ 0 < max p eps) ∧
    (∀ l ∈ (tf_parametrize eps minFloat mask deviations sv).logits,
      Real.log eps ≤ l) := by
  refine ⟨parametrize_logits_eq eps minFloat mask deviations sv, ?_, ?_⟩
  · intro p _
    exact ⟨le_max_right p eps, lt_of_lt_of_le heps (le_max_right p eps)⟩
  · intro l hl
    rw [parametrize_logits_eq eps minFloat mask deviations sv] at hl
    rcases List.mem_map.mp hl with ⟨p, _, rfl⟩
    exact Real.log_le_log heps (le_max_right p eps)

/-- Witness for C6 at eps `1/2`, mask `[true]`, deviations `[0]`. -/
theorem c6_parametrize_logits_clamped_witness :
    (0:ℝ) < 1/2 ∧
      ((tf_parametrize (1/2) 0 [true] [(0:ℝ)] none).logits =
        (tf_parametrize (1/2) 0 [true] [(0:ℝ)] none).probabilities.map
          (fun p => Real.log (max p (1/2))) ∧
      (∀ p ∈ (tf_parametrize (1/2) 0 [true] [(0:ℝ)] none).probabilities,
        (1:ℝ)/2 ≤ max p (1/2) ∧ 0 < max p (1/2)) ∧
      (∀ l ∈ (tf_parametrize (1/2) 0 [true] [(0:ℝ)] none).logits,
        Real.log (1/2) ≤ l)) :=
  ⟨by norm_num,
    c6_parametrize_logits_clamped (1/2) 0 [true] [(0:ℝ)] none (by norm_num)⟩

lemma getD_mem_of_lt (l : List ℝ) (i : ℕ) (hi : i < l.length) : l.getD i 0 ∈ l := by
  rw [List.getD_eq_getElem l 0 hi]
  exact List.getElem_mem hi

lemma sample_vals_getD (Q L u : List ℝ) (eps minFloat T : ℝ) (i : ℕ)
    (hQ : i < Q.length) (hL : i < L.length) (hu : i < u.length) :
    (List.zipWith (· + ·)
        (List.zipWith (fun pr l => if pr < eps then minFloat else l) Q
          (L.map fun l => l / T))
        (u.map gumbelOf)).getD i 0 =
      (if Q.getD i 0 < eps then minFloat else L.getD i 0 / T) +
        gumbelOf (u.getD i 0) := by
  have hz : i < (List.zipWith (· + ·)
      (List.zipWith (fun pr l => if pr < eps then minFloat else l) Q
        (L.map fun l => l / T))
      (u.map gumbelOf)).length := by
    simp only [List.length_zipWith, List.length_map]
    omega
  rw [List.getD_eq_getElem _ 0 hz]
  rw [List.getElem_zipWith, List.getElem_zipWith, List.getElem_map, List.getElem_map]
  rw [← List.getD_eq_getElem Q 0 hQ, ← List.getD_eq_getElem L 0 hL,
    ← List.getD_eq_getElem u 0 hu]

lemma gumbelOf_lower (eps u : ℝ) (heps : 0 < eps) (heps1 : eps < 1)
    (h1 : eps ≤ u) (h2 : u ≤ 1 - eps) :
    -Real.log (-Real.log eps) ≤ gumbelOf u := by
  have hu_pos : 0 < u := lt_of_lt_of_le heps h1
  have hu_lt1 : u < 1 := lt_of_le_of_lt h2 (by linarith)
  have hlogu_neg : Real.log u < 0 := Real.log_neg hu_pos hu_lt1
  have hloge_neg : Real.log eps < 0 := Real.log_neg heps heps1
  have hmono : Real.log eps ≤ Real.log u := Real.log_le_log heps h1
  have h3 : Real.log (-Real.log u) ≤ Real.log (-Real.log eps) :=
    Real.log_le_log (by linarith) (by linarith)
  unfold gumbelOf
  linarith

lemma gumbelOf_upper (eps u : ℝ) (heps : 0 < eps) (heps1 : eps < 1)
    (h1 : eps ≤ u) (h2 : u ≤ 1 - eps) :
    gumbelOf u ≤ -Real.log eps := by
  have hu_pos : 0 < u := lt_of_lt_of_le heps h1
  have h1e : (0:ℝ) < 1 - eps := by linarith
  have hle : Real.log u ≤ Real.log (1 - eps) := Real.log_le_log hu_pos h2
  have hl1 : Real.log (1 - eps) ≤ -eps := by
    linarith [Real.log_le_sub_one_of_pos h1e]
  have h4 : eps ≤ -Real.log u := by linarith
  have h5 : Real.log eps ≤ Real.log (-Real.log u) := Real.log_le_log heps h4
  unfold gumbelOf
  linarith

/-- Claim C8: whenever some action's probability is at least epsilon and
the temperature is at least epsilon, `tf_sample` never returns an action
whose probability is below epsilon, for every random draw inside the
interval the code draws from: the scaled logits of such actions are
replaced by the minimum float value before the Gumbel-noise argmax.  The
hypothesis `hmf` records the relation between the minimum float value
and epsilon that the float32 constants of the code satisfy. -/
theorem c8_sample_avoids_sub_epsilon_actions
    (eps minFloat temperature : ℝ) (mask : List Bool) (deviations : List ℝ)
    (sv : Option ℝ) (uniform : List ℝ)
    (heps : 0 < eps) (heps1 : eps < 1)
    (hmf : minFloat - Real.log eps <
      Real.log eps / eps - Real.log (-Real.log eps))
    (htemp : eps ≤ temperature)
    (hlen : uniform.length =
      (tf_parametrize eps minFloat mask deviations sv).probabilities.length)
    (hrange : ∀ u ∈ uniform, eps ≤ u ∧ u ≤ 1 - eps)
    (hgood : ∃ i, i < (tf_parametrize eps minFloat mask deviations sv).probabilities.length ∧
      eps ≤ (tf_parametrize eps minFloat mask deviations sv).probabilities.getD i 0) :
    eps ≤ (tf_parametrize eps minFloat mask deviations sv).probabilities.getD
      (tf_sample eps minFloat (tf_parametrize eps minFloat mask deviations sv)
        temperature uniform) 0 := by
  set P := tf_parametrize eps minFloat mask deviations sv with hP
  have hLQ : P.logits = normLogits eps P.probabilities := by
    rw [hP]
    exact parametrize_logits_eq eps minFloat mask deviations sv
  have hlenL : P.logits.length = P.probabilities.length := by
    rw [hLQ, normLogits_length]
  set vals := List.zipWith (· + ·)
      (List.zipWith (fun pr l => if pr < eps then minFloat else l) P.probabilities
        (P.logits.map fun l => l / temperature))
      (uniform.map gumbelOf) with hvals
  have hsample : tf_sample eps minFloat P temperature uniform = argmaxIdx vals := by
    simp only [tf_sample]
    rw [if_neg (not_lt.mpr htemp)]
  have hlen_vals : vals.length = P.probabilities.length := by
    rw [hvals]
    simp [List.length_zipWith, List.length_map, hlenL, hlen]
  have hvals_get : ∀ i, i < P.probabilities.length → vals.getD i 0 =
      (if P.probabilities.getD i 0 < eps then minFloat
        else P.logits.getD i 0 / temperature) + gumbelOf (uniform.getD i 0) := by
    intro i hi
    have hiL : i < P.logits.length := by rw [hlenL]; exact hi
    have hiu : i < uniform.length := by rw [hlen]; exact hi
    rw [hvals]
    exact sample_vals_getD P.probabilities P.logits uniform eps minFloat
      temperature i hi hiL hiu
  obtain ⟨i0, hi0, hQi0⟩ := hgood
  have hT : 0 < temperature := lt_of_lt_of_le heps htemp
  have hloge_neg : Real.log eps < 0 := Real.log_neg heps heps1
  have hL_i0 : Real.log eps ≤ P.logits.getD i0 0 := by
    rw [hLQ]
    unfold normLogits
    rw [getD_map_of_lt _ _ i0 hi0 0 0]
    exact Real.log_le_log heps (le_max_right _ _)
  have hscale : Real.log eps / eps ≤ P.logits.getD i0 0 / temperature := by
    rcases le_or_lt 0 (P.logits.getD i0 0) with hL | hL
    · have h1 : Real.log eps / eps < 0 := div_neg_of_neg_of_pos hloge_neg heps
      have h2 : 0 ≤ P.logits.getD i0 0 / temperature := div_nonneg hL hT.le
      linarith
    · have h1 : 1/temperature ≤ 1/eps := one_div_le_one_div_of_le heps htemp
      have h2 : P.logits.getD i0 0 * (1/temperature) ≥ P.logits.getD i0 0 * (1/eps) :=
        mul_le_mul_of_nonpos_left h1 hL.le
      have h3 : P.logits.getD i0 0 / eps ≤ P.logits.getD i0 0 / temperature := by
        rw [ge_iff_le, mul_one_div, mul_one_div] at h2
        exact h2
      have h4 : Real.log eps / eps ≤ P.logits.getD i0 0 / eps :=
        (div_le_div_iff_of_pos_right heps).mpr hL_i0
      linarith
  have hval_i0 : Real.log eps / eps + -Real.log (-Real.log eps) ≤ vals.getD i0 0 := by
    rw [hvals_get i0 hi0, if_neg (not_lt.mpr hQi0)]
    have hu_mem : uniform.getD i0 0 ∈ uniform :=
      getD_mem_of_lt uniform i0 (by rw [hlen]; exact hi0)
    obtain ⟨hu1, hu2⟩ := hrange _ hu_mem
    exact add_le_add hscale (gumbelOf_lower eps _ heps heps1 hu1 hu2)
  have hvne : vals ≠ [] := by
    intro h0
    rw [h0] at hlen_vals
    simp at hlen_vals
    rw [← hlen_vals] at hi0
    exact Nat.not_lt_zero i0 hi0
  have hk : argmaxIdx vals < P.probabilities.length := by
    rw [← hlen_vals]
    exact argmaxIdx_lt_length vals hvne
  rw [hsample]
  by_contra hcon
  push_neg at hcon
  have hvk : vals.getD (argmaxIdx vals) 0 =
      minFloat + gumbelOf (uniform.getD (argmaxIdx vals) 0) := by
    rw [hvals_get (argmaxIdx vals) hk, if_pos hcon]
  have hmax := argmaxIdx_is_max vals i0 (by rw [hlen_vals]; exact hi0)
  have hu_mem_k : uniform.getD (argmaxIdx vals) 0 ∈ uniform :=
    getD_mem_of_lt uniform (argmaxIdx vals) (by rw [hlen]; exact hk)
  obtain ⟨hk1, hk2⟩ := hrange _ hu_mem_k
  have hhi := gumbelOf_upper eps _ heps heps1 hk1 hk2
  linarith [hval_i0, hmax, hvk, hhi, hmf]

/-- Witness for C8 at a two-action uniform parametrization. -/
theorem c8_sample_avoids_sub_epsilon_actions_witness :
    (0:ℝ) < 1/2 ∧ (1:ℝ)/2 < 1 ∧
    (-100 - Real.log (1/2) <
      Real.log (1/2) / (1/2) - Real.log (-Real.log (1/2))) ∧
    (1:ℝ)/2 ≤ 1 ∧
    ([(1:ℝ)/2, 1/2]).length =
      (tf_parametrize (1/2) (-100) [true, true] [(0:ℝ), 0]
        none).probabilities.length ∧
    (∀ u ∈ [(1:ℝ)/2, 1/2], (1:ℝ)/2 ≤ u ∧ u ≤ 1 - 1/2) ∧
    (∃ i, i < (tf_parametrize (1/2) (-100) [true, true] [(0:ℝ), 0]
        none).probabilities.length ∧
      (1:ℝ)/2 ≤ (tf_parametrize (1/2) (-100) [true, true] [(0:ℝ), 0]
        none).probabilities.getD i 0) ∧
    (1:ℝ)/2 ≤ (tf_parametrize (1/2) (-100) [true, true] [(0:ℝ), 0]
        none).probabilities.getD
      (tf_sample (1/2) (-100)
        (tf_parametrize (1/2) (-100) [true, true] [(0:ℝ), 0] none) 1
        [(1:ℝ)/2, 1/2]) 0 := by
  have hprobs : (tf_parametrize (1/2) (-100) [true, true] [(0:ℝ), 0]
      none).probabilities = [1/2, 1/2] := by
    simp [tf_parametrize, softmax, maskValues, Real.exp_zero]
    norm_num
  have h1 : (0:ℝ) < 1/2 := by norm_num
  have h2 : (1:ℝ)/2 < 1 := by norm_num
  have h3 : -100 - Real.log (1/2) <
      Real.log (1/2) / (1/2) - Real.log (-Real.log (1/2)) := by
    have hl2 : Real.log (1/2) = -Real.log 2 := by rw [one_div, Real.log_inv]
    have hpos : 0 < Real.log 2 := by linarith [Real.log_two_gt_d9]
    have hself : Real.log (Real.log 2) ≤ Real.log 2 - 1 :=
      Real.log_le_sub_one_of_pos hpos
    have hdiv : (-Real.log 2) / ((1:ℝ)/2) = -(2 * Real.log 2) := by ring
    rw [hl2, hdiv, neg_neg]
    linarith [Real.log_two_lt_d9]
  have h4 : (1:ℝ)/2 ≤ 1 := by norm_num
  have h5 : ([(1:ℝ)/2, 1/2]).length =
      (tf_parametrize (1/2) (-100) [true, true] [(0:ℝ), 0]
        none).probabilities.length := by
    rw [hprobs]
  have h6 : ∀ u ∈ [(1:ℝ)/2, 1/2], (1:ℝ)/2 ≤ u ∧ u ≤ 1 - 1/2 := by
    intro u hu
    rcases List.mem_cons.mp hu with rfl | hu
    · norm_num
    rcases List.mem_cons.mp hu with rfl | hu
    · norm_num
    · exact absurd hu (List.not_mem_nil u)
  have h7 : ∃ i, i < (tf_parametrize (1/2) (-100) [true, true] [(0:ℝ), 0]
      none).probabilities.length ∧
      (1:ℝ)/2 ≤ (tf_parametrize (1/2) (-100) [true, true] [(0:ℝ), 0]
        none).probabilities.getD i 0 := by
    refine ⟨0, ?_, ?_⟩
    · rw [hprobs]
      norm_num
    · rw [hprobs]
      norm_num [List.getD]
  exact ⟨h1, h2, h3, h4, h5, h6, h7,
    c8_sample_avoids_sub_epsilon_actions (1/2) (-100) 1 [true, true] [(0:ℝ), 0]
      none [(1:ℝ)/2, 1/2] h1 h2 h3 h4 h5 h6 h7⟩

/-- Claim C9: for every parameters tuple produced by `tf_parametrize`,
the KL divergence of the tuple against itself is zero. -/
theorem c9_kl_divergence_self_zero
    (eps minFloat : ℝ) (mask : List Bool) (deviations : List ℝ) (sv : Option ℝ) :
    tf_kl_divergence (tf_parametrize eps minFloat mask deviations sv)
      (tf_parametrize eps minFloat mask deviations sv) = 0 := by
  unfold tf_kl_divergence
  exact zipWith_mul_sub_self_sum _ _

/-- Claim C10: `main` of `examples/unity.py` raises
`TensorForceError("No agent configuration provided.")` exactly when no
agent configuration argument is supplied, and in that case the error is
raised before any other step runs, in particular before the
environment, the agent, or the runner is constructed. -/
theorem c10_unity_main_error_iff_no_agent_config (args : UnityArgs) :
    ((unityMain args).2 = some "No agent configuration provided." ↔
      args.agentConfig = none) ∧
    (args.agentConfig = none → (unityMain args).1 = []) := by
  cases h : args.agentConfig with
  | none => simp [unityMain, h]
  | some path => simp [unityMain, h]

/-- Witness for C10 with no agent configuration supplied. -/
theorem c10_unity_main_error_iff_no_agent_config_witness :
    (unityMain ⟨"3dball", none, none, none, none⟩).2 =
      some "No agent configuration provided." ∧
    (unityMain ⟨"3dball", none, none, none, none⟩).1 = [] :=
  ⟨(c10_unity_main_error_iff_no_agent_config ⟨"3dball", none, none, none, none⟩).1.mpr
      rfl,
    (c10_unity_main_error_iff_no_agent_config ⟨"3dball", none, none, none, none⟩).2
      rfl⟩

end Tensorforce
